import Mathlib

/-!
# Verification of the fsspec ingest connector

Shallow embedding of `unstructured/ingest/connector/fsspec.py`.

Python strings are modelled as lists of characters (`PyStr`); `None`-able
metadata values as `Option`; raised exceptions as `Except` / error codes.
The remote filesystem (`fsspec`) and the local corpus adapter are external
collaborators and appear only through their observable answers (listings,
extraction outcomes).
-/

/-- Python strings, modelled as lists of characters. -/
abbrev PyStr := List Char

/-- Shorthand turning a Lean string literal into a `PyStr`. -/
def pys (s : String) : PyStr := s.data

/-- ASCII fragment of the Python regex character class `\s` (space, tab,
newline, carriage return, vertical tab, form feed).  Every input occurring
in the source, its callers and the spec is ASCII. -/
def pyIsSpace (c : Char) : Bool :=
  c == ' ' || c == '\t' || c == '\n' || c == '\r' || c == '\x0b' || c == '\x0c'

/-- If the pattern (first argument) is a leading part of the second
argument, return the remainder after removing it. -/
def chopStart : PyStr → PyStr → Option PyStr
  | [], s => some s
  | _ :: _, [] => none
  | p :: ps, c :: cs => if p = c then chopStart ps cs else none

/-- Worker for `pySplit`: scans left to right; a `Nat.succ` skip count
means the character belongs to an already recognised separator occurrence
and is consumed silently.  Implements Python `str.split(sep)` for the
non-empty separator `o :: os` (leftmost, non-overlapping occurrences). -/
def splitGo (o : Char) (os : PyStr) : PyStr → Nat → List PyStr
  | [], _ => [[]]
  | _ :: rest, Nat.succ k => splitGo o os rest k
  | c :: rest, 0 =>
    match chopStart (o :: os) (c :: rest) with
    | some _ => [] :: splitGo o os rest os.length
    | none =>
      match splitGo o os rest 0 with
      | [] => [[c]]
      | p :: ps => (c :: p) :: ps

/-- Python `str.split(sep)` for a non-empty separator (Python raises on an
empty separator; the source only ever splits on `"://"`). -/
def pySplit (pat s : PyStr) : List PyStr :=
  match pat with
  | [] => [s]
  | o :: os => splitGo o os s 0

/-- Worker for `hasOccAll`: does the pattern `o :: os` occur anywhere? -/
def occGo (o : Char) (os : PyStr) : PyStr → Bool
  | [] => false
  | c :: rest => (chopStart (o :: os) (c :: rest)).isSome || occGo o os rest

/-- Whether `pat` occurs as a contiguous run inside `s`. -/
def hasOccAll (pat s : PyStr) : Bool :=
  match pat with
  | [] => true
  | o :: os => occGo o os s

/-- Worker for `pyReplaceEmpty` (same skip discipline as `splitGo`). -/
def removeGo (o : Char) (os : PyStr) : PyStr → Nat → PyStr
  | [], _ => []
  | _ :: rest, Nat.succ k => removeGo o os rest k
  | c :: rest, 0 =>
    match chopStart (o :: os) (c :: rest) with
    | some _ => removeGo o os rest os.length
    | none => c :: removeGo o os rest 0

/-- Python `s.replace(pat, "")`: removes every leftmost, non-overlapping
occurrence of `pat` from `s`. -/
def pyReplaceEmpty (pat s : PyStr) : PyStr :=
  match pat with
  | [] => s
  | o :: os => removeGo o os s 0

/-- Python `re`'s `$` also matches just before one final newline; the
root-only pattern of `__post_init__` therefore tolerates a single trailing
`'\n'`, modelled by stripping it first. -/
def stripFinalNewline : PyStr → PyStr
  | [] => []
  | c :: rest => if c = '\n' ∧ rest = [] then [] else c :: stripFinalNewline rest

/-- Removes the maximal run of `'/'` at the end of the string (the `(/*)`
group of the root-only regex). -/
def stripTrailingSlashes : PyStr → PyStr
  | [] => []
  | c :: rest =>
    match stripTrailingSlashes rest with
    | [] => if c = '/' then [] else [c]
    | d :: ds => c :: d :: ds

/-- `re.match(rf"{self.protocol}://([\s])/", self.path)` viewed from the
remainder after `protocol://`: an (unanchored) prefix match requiring one
whitespace character and then `'/'`; any later characters are ignored. -/
def rootlessMatch (rest : PyStr) : Bool :=
  match rest with
  | c1 :: c2 :: _ => pyIsSpace c1 && c2 == '/'
  | _ => false

/-- `re.match(rf"{self.protocol}://([^/\s]+?)(/*)$", self.path)` viewed
from the remainder: group 1 (the returned core) is the remainder minus an
optional final newline and the trailing run of slashes; it must be
non-empty and contain no `'/'` and no whitespace. -/
def rootOnlyMatch (rest : PyStr) : Option PyStr :=
  let core := stripTrailingSlashes (stripFinalNewline rest)
  if core ≠ [] ∧ ∀ c ∈ core, pyIsSpace c = false ∧ c ≠ '/' then some core
  else none

/-- `re.match(rf"{self.protocol}://([^/\s]+?)/([^\s]*)", self.path)` viewed
from the remainder: group 1 is everything before the first `'/'`
(non-empty, no whitespace), group 2 the longest non-whitespace run after
that slash; later characters are ignored (no end anchor). -/
def rootObjectMatch (rest : PyStr) : Option (PyStr × PyStr) :=
  let core := rest.takeWhile (fun c => !(c == '/'))
  if core.length < rest.length ∧ core ≠ [] ∧ ∀ c ∈ core, pyIsSpace c = false then
    some (core, (rest.drop (core.length + 1)).takeWhile (fun c => !(pyIsSpace c)))
  else none

/-- `SUPPORTED_REMOTE_FSSPEC_PROTOCOLS` from the source. -/
def SUPPORTED_REMOTE_FSSPEC_PROTOCOLS : List PyStr :=
  [pys "s3", pys "s3a", pys "abfs", pys "az", pys "gs", pys "gcs",
   pys "box", pys "dropbox"]

/-- The Python exceptions raised by the embedded code paths. -/
inductive PyError where
  /-- `ValueError` raised by unpacking `self.path.split("://")` into two
  names when the split does not yield exactly two parts. -/
  | valueUnpack
  /-- `ValueError` "Protocol ... not supported yet". -/
  | unsupportedProtocol
  /-- `ValueError` "Invalid path ...". -/
  | invalidPath
  /-- `ValueError` "No objects found in ..." (the spec's `EmptyCorpus`). -/
  | noObjectsFound
  /-- `TypeError` raised by `None > 0` in the size filter. -/
  | typeError
  deriving DecidableEq

/-- The fields of `SimpleFsspecConfig` computed by `__post_init__`. -/
structure SimpleFsspecConfig where
  protocol : PyStr
  path_without_protocol : PyStr
  dir_path : PyStr
  file_path : PyStr
  deriving DecidableEq

/-- `SimpleFsspecConfig.__post_init__`: splits `path` on `"://"` (tuple
unpacking demands exactly two parts), rejects unsupported protocols, then
tries the three regex shapes in source order: rootless (dropbox only),
root-only, root-plus-object; otherwise raises the invalid-path error. -/
def postInit (path : PyStr) : Except PyError SimpleFsspecConfig :=
  match pySplit (pys "://") path with
  | [protocol, rest] =>
    if protocol ∈ SUPPORTED_REMOTE_FSSPEC_PROTOCOLS then
      if rootlessMatch rest = true ∧ protocol = pys "dropbox" then
        .ok ⟨protocol, rest, pys " ", pys ""⟩
      else
        match rootOnlyMatch rest with
        | some core => .ok ⟨protocol, rest, core, pys ""⟩
        | none =>
          match rootObjectMatch rest with
          | some (d, f) => .ok ⟨protocol, rest, d, f⟩
          | none => .error .invalidPath
    else .error .unsupportedProtocol
  | _ => .error .valueUnpack

/-- `pathlib.Path(a) / b` for POSIX paths as they arise here: empty `b`
keeps `a`, an absolute `b` replaces `a`, otherwise the parts are joined
with `'/'`.  (Pathlib's normalisation of repeated separators is not
modelled; the embedded code never produces them.) -/
def pathDiv (a b : PyStr) : PyStr :=
  match b with
  | [] => a
  | '/' :: _ => b
  | _ => a ++ '/' :: b

/-- `FsspecIngestDoc._tmp_download_file`: the download directory joined
with `remote_file_path.replace(f"{dir_path}/", "")`. -/
def tmp_download_file (download_dir dir_path remote_file_path : PyStr) : PyStr :=
  pathDiv download_dir (pyReplaceEmpty (dir_path ++ pys "/") remote_file_path)

/-- `FsspecIngestDoc._output_filename`: the output directory joined with
the same replaced key plus `".json"`. -/
def output_filename (output_dir dir_path remote_file_path : PyStr) : PyStr :=
  pathDiv output_dir (pyReplaceEmpty (dir_path ++ pys "/") remote_file_path ++ pys ".json")

/-- The claim's reading of the path derivation: remove only a LEADING
`dir_path ++ "/"` from the remote key, for comparison with the code's
`str.replace`, which removes every occurrence. -/
def removeLeadingRootOnly (dir_path remote_file_path : PyStr) : PyStr :=
  match chopStart (dir_path ++ pys "/") remote_file_path with
  | some rem => rem
  | none => remote_file_path

/-- One record of `fs.ls(path, detail=True)` / `fs.find(path, detail=True)`:
only the fields the code reads.  `x.get("size")` yields `none` when the
backend omits the key. -/
structure FileEntry where
  name : PyStr
  size : Option Int
  deriving DecidableEq

/-- The remote filesystem capability, fixed to the configured
`path_without_protocol`: `lsEntries` models `fs.ls(path, detail=True)`
(and, through the name projection, the plain `fs.ls(path)` used by
`initialize`), `findEntries` models `fs.find(path, detail=True).items()`
in iteration order. -/
structure Fs where
  lsEntries : List FileEntry
  findEntries : List FileEntry
  deriving DecidableEq

/-- `FsspecConnector.initialize`: raises "No objects found" when
`len(fs.ls(path)) < 1`.  Note that it inspects the raw listing, before any
size filter is applied. -/
def connectorInit (fs : Fs) : Except PyError Unit :=
  if fs.lsEntries.length < 1 then .error .noObjectsFound else .ok ()

/-- The comprehension filter of `_list_files`: `x.get("size") > 0` keeps
an entry's name; a missing size (`None > 0`) raises `TypeError`.
Evaluation is left to right, so the first sizeless entry raises. -/
def filterSized : List FileEntry → Except PyError (List PyStr)
  | [] => .ok []
  | e :: rest =>
    match e.size with
    | none => .error .typeError
    | some n =>
      match filterSized rest with
      | .error err => .error err
      | .ok names => .ok (if 0 < n then e.name :: names else names)

/-- `FsspecConnector._list_files`: `fs.ls` entries in non-recursive mode,
`fs.find` entries in recursive mode, both through the same size filter. -/
def listFiles (recursive : Bool) (fs : Fs) : Except PyError (List PyStr) :=
  if recursive then filterSized fs.findEntries else filterSized fs.lsEntries

/-- `x.get("size") > 0` as a total predicate on entries that do carry a
size; used to state what the filter keeps. -/
def sizePos (e : FileEntry) : Bool :=
  match e.size with
  | some n => decide (0 < n)
  | none => false

/-- `FsspecIngestDoc.process_file`: an archive (`is_compressed`) is logged
and `None` is returned without calling `super().process_file`.  The second
component records whether the call was forwarded to the superclass, i.e.
whether the document was submitted to the downstream content processor. -/
def process_file {α : Type} (is_compressed : Bool) (superResult : Option α) :
    Option α × Bool :=
  if is_compressed then (none, false) else (superResult, true)

/-- `FsspecIngestDoc.write_result`: same guard as `process_file`, skipping
`super().write_result` (the output-record write) for archives. -/
def write_result {α : Type} (is_compressed : Bool) (superResult : Option α) :
    Option α × Bool :=
  if is_compressed then (none, false) else (superResult, true)

/-- `tarfile.ReadError`: the only exception type `process_tar` catches,
and the error a malformed tar archive raises when opened. -/
inductive TarError where
  | readError
  deriving DecidableEq

/-- `FsspecIngestDoc.process_tar`: `extracted` is the outcome of
`TarFile(...).extractall` followed by the local-connector enumeration of
the extraction directory (the produced child docs).  On `ReadError` the
error is logged (Bool component) and the method returns with `children`
unchanged; on success the children list is extended. -/
def process_tar {α : Type} (extracted : Except TarError (List α))
    (children : List α) : List α × Bool :=
  match extracted with
  | .error _ => (children, true)
  | .ok docs => (children ++ docs, false)

/-- `FsspecIngestDoc.process_zip`: no `try`/`except` around
`ZipFile(...).extractall`, so an extraction error of any type `ε`
propagates unchanged to the caller; on success the children list is
extended exactly as in the tar case. -/
def process_zip {α ε : Type} (extracted : Except ε (List α))
    (children : List α) : Except ε (List α) :=
  match extracted with
  | .error e => .error e
  | .ok docs => .ok (children ++ docs)

/-- Local filesystem state observed by the fetch step: which local paths
exist and how many backend `fs.get` calls have been made. -/
structure FetchState where
  existingPaths : List PyStr
  fetchCalls : Nat
  deriving DecidableEq

/-- Modelled from the spec: the decorator `BaseIngestDoc.skip_if_file_exists`
is defined in `unstructured/ingest/interfaces.py`, which is not among the
sources; per the spec, "if `local_cache_path` already exists, the fetch
step is skipped entirely".  The wrapped body (`FsspecIngestDoc.get_file`)
creates the parent directories and performs one backend `fs.get` call,
leaving the file at `_tmp_download_file`. -/
def get_file (download_dir dir_path remote_file_path : PyStr)
    (st : FetchState) : FetchState :=
  let p := tmp_download_file download_dir dir_path remote_file_path
  if p ∈ st.existingPaths then st
  else { existingPaths := p :: st.existingPaths, fetchCalls := st.fetchCalls + 1 }

/-! ## Helper lemmas -/

theorem chopStart_self_append (t u : PyStr) : chopStart t (t ++ u) = some u := by
  induction t with
  | nil => rfl
  | cons p ps ih => simp [chopStart, ih]

theorem removeGo_skip (o : Char) (os : PyStr) :
    ∀ t u : PyStr, removeGo o os (t ++ u) t.length = removeGo o os u 0 := by
  intro t
  induction t with
  | nil => intro u; rfl
  | cons x t' ih =>
    intro u
    show removeGo o os (x :: (t' ++ u)) (Nat.succ t'.length) = removeGo o os u 0
    rw [show removeGo o os (x :: (t' ++ u)) (Nat.succ t'.length) =
      removeGo o os (t' ++ u) t'.length from rfl]
    exact ih u

theorem removeGo_pat (o : Char) (os rel : PyStr) :
    removeGo o os ((o :: os) ++ rel) 0 = removeGo o os rel 0 := by
  have hc : chopStart (o :: os) ((o :: os) ++ rel) = some rel := chopStart_self_append _ _
  simp only [List.cons_append] at hc ⊢
  simp only [removeGo, hc]
  exact removeGo_skip o os os rel

theorem removeGo_noOcc (o : Char) (os : PyStr) :
    ∀ s : PyStr, occGo o os s = false → removeGo o os s 0 = s := by
  intro s
  induction s with
  | nil => intro _; rfl
  | cons c rest ih =>
    intro h
    cases hh : chopStart (o :: os) (c :: rest) with
    | some r => simp [occGo, hh] at h
    | none =>
      have h2 : occGo o os rest = false := by simpa [occGo, hh] using h
      simp only [removeGo, hh]
      rw [ih h2]

theorem splitGo_noOcc (o : Char) (os : PyStr) :
    ∀ s : PyStr, occGo o os s = false → splitGo o os s 0 = [s] := by
  intro s
  induction s with
  | nil => intro _; rfl
  | cons c rest ih =>
    intro h
    cases hh : chopStart (o :: os) (c :: rest) with
    | some r => simp [occGo, hh] at h
    | none =>
      have h2 : occGo o os rest = false := by simpa [occGo, hh] using h
      simp only [splitGo, hh, ih h2]

theorem stripFinalNewline_cons (c : Char) (t : PyStr) :
    stripFinalNewline (c :: t) = [] ∨ ∃ r, stripFinalNewline (c :: t) = c :: r := by
  simp only [stripFinalNewline]
  split
  · exact Or.inl rfl
  · exact Or.inr ⟨_, rfl⟩

theorem stripTrailingSlashes_cons (c : Char) (t : PyStr) :
    stripTrailingSlashes (c :: t) = [] ∨
      ∃ r, stripTrailingSlashes (c :: t) = c :: r := by
  rw [show stripTrailingSlashes (c :: t) =
      (match stripTrailingSlashes t with
       | [] => if c = '/' then [] else [c]
       | d :: ds => c :: d :: ds) from rfl]
  cases stripTrailingSlashes t with
  | nil =>
    by_cases h : c = '/'
    · left; simp [h]
    · right; exact ⟨[], by simp [h]⟩
  | cons d ds => right; exact ⟨d :: ds, rfl⟩

theorem core_head (c : Char) (t : PyStr)
    (h : stripTrailingSlashes (stripFinalNewline (c :: t)) ≠ []) :
    ∃ r, stripTrailingSlashes (stripFinalNewline (c :: t)) = c :: r := by
  rcases stripFinalNewline_cons c t with h1 | ⟨r, h1⟩
  · rw [h1] at h
    exact absurd rfl h
  · rw [h1] at h ⊢
    rcases stripTrailingSlashes_cons c r with h2 | h2
    · exact absurd h2 h
    · exact h2

theorem rootOnlyMatch_eq_some {rest core : PyStr}
    (h : rootOnlyMatch rest = some core) :
    core = stripTrailingSlashes (stripFinalNewline rest) ∧ core ≠ [] ∧
      ∀ c ∈ core, pyIsSpace c = false ∧ c ≠ '/' := by
  simp only [rootOnlyMatch] at h
  by_cases hc : stripTrailingSlashes (stripFinalNewline rest) ≠ [] ∧
      ∀ c ∈ stripTrailingSlashes (stripFinalNewline rest),
        pyIsSpace c = false ∧ c ≠ '/'
  · rw [if_pos hc] at h
    injection h with h'
    subst h'
    exact ⟨rfl, hc.1, hc.2⟩
  · rw [if_neg hc] at h
    exact absurd h (by simp)

theorem rootObjectMatch_eq_some {rest d f : PyStr}
    (h : rootObjectMatch rest = some (d, f)) :
    d ≠ [] ∧ ∀ c ∈ d, pyIsSpace c = false := by
  simp only [rootObjectMatch] at h
  by_cases hc : (rest.takeWhile (fun c => !(c == '/'))).length < rest.length ∧
      rest.takeWhile (fun c => !(c == '/')) ≠ [] ∧
      ∀ c ∈ rest.takeWhile (fun c => !(c == '/')), pyIsSpace c = false
  · rw [if_pos hc] at h
    injection h with h'
    injection h' with hd hf
    subst hd
    exact ⟨hc.2.1, hc.2.2⟩
  · rw [if_neg hc] at h
    exact absurd h (by simp)

theorem rootlessMatch_iff {rest : PyStr} :
    rootlessMatch rest = true ↔
      ∃ c t, rest = c :: '/' :: t ∧ pyIsSpace c = true := by
  cases rest with
  | nil => simp [rootlessMatch]
  | cons c1 rest1 =>
    cases rest1 with
    | nil => simp [rootlessMatch]
    | cons c2 t =>
      simp only [rootlessMatch, Bool.and_eq_true, beq_iff_eq]
      constructor
      · rintro ⟨hws, hc2⟩
        exact ⟨c1, t, by rw [hc2], hws⟩
      · rintro ⟨c, t', heq, hws⟩
        injection heq with e1 e2
        injection e2 with e3 _
        subst e1
        subst e3
        exact ⟨hws, rfl⟩

theorem notRootless_of_core {rest : PyStr}
    (hne : stripTrailingSlashes (stripFinalNewline rest) ≠ [])
    (hall : ∀ c ∈ stripTrailingSlashes (stripFinalNewline rest),
      pyIsSpace c = false ∧ c ≠ '/') :
    rootlessMatch rest = false := by
  cases rest with
  | nil => rfl
  | cons c t =>
    obtain ⟨r, hr⟩ := core_head c t hne
    have hc : pyIsSpace c = false :=
      (hall c (by rw [hr]; exact List.mem_cons_self _ _)).1
    cases t with
    | nil => rfl
    | cons c2 t' => simp [rootlessMatch, hc]

theorem postInit_two {protocol rest path : PyStr}
    (hsplit : pySplit (pys "://") path = [protocol, rest]) :
    postInit path =
      if protocol ∈ SUPPORTED_REMOTE_FSSPEC_PROTOCOLS then
        if rootlessMatch rest = true ∧ protocol = pys "dropbox" then
          .ok ⟨protocol, rest, pys " ", pys ""⟩
        else
          match rootOnlyMatch rest with
          | some core => .ok ⟨protocol, rest, core, pys ""⟩
          | none =>
            match rootObjectMatch rest with
            | some (d, f) => .ok ⟨protocol, rest, d, f⟩
            | none => .error .invalidPath
      else .error .unsupportedProtocol := by
  unfold postInit
  rw [hsplit]

theorem filterSized_ok {l : List FileEntry} (h : ∀ e ∈ l, e.size ≠ none) :
    filterSized l = .ok ((l.filter sizePos).map FileEntry.name) := by
  induction l with
  | nil => rfl
  | cons e rest ih =>
    have hrest : ∀ x ∈ rest, x.size ≠ none :=
      fun x hx => h x (List.mem_cons_of_mem _ hx)
    cases hs : e.size with
    | none => exact absurd hs (h e (List.mem_cons_self _ _))
    | some n =>
      simp only [filterSized, hs, ih hrest]
      by_cases hn : 0 < n
      · simp [List.filter_cons, sizePos, hs, hn]
      · simp [List.filter_cons, sizePos, hs, hn]

theorem filterSized_err {l : List FileEntry} (h : ∃ e ∈ l, e.size = none) :
    filterSized l = .error .typeError := by
  induction l with
  | nil => simp at h
  | cons e rest ih =>
    cases hs : e.size with
    | none => simp only [filterSized, hs]
    | some n =>
      have hrest : ∃ x ∈ rest, x.size = none := by
        rcases h with ⟨x, hx, hxs⟩
        rcases List.mem_cons.mp hx with rfl | hx'
        · rw [hs] at hxs
          exact absurd hxs (by simp)
        · exact ⟨x, hx', hxs⟩
      simp only [filterSized, hs, ih hrest]

/-! ## Claim theorems -/

/-- C1 (amended): initialization fails with the no-objects-found
(`EmptyCorpus`) error exactly when the RAW, unfiltered backend listing is
empty; a backend state whose listing contains only zero-size entries
passes initialization, and the size-filtered listing is then empty, so
the run proceeds silently with an empty document list. -/
theorem c1_init_checks_raw_listing (fs : Fs) :
    (connectorInit fs = .error .noObjectsFound ↔ fs.lsEntries = []) ∧
    ((∀ e ∈ fs.lsEntries, e.size = some 0) → listFiles false fs = .ok []) := by
  constructor
  · unfold connectorInit
    by_cases h : fs.lsEntries.length < 1
    · rw [if_pos h]
      constructor
      · intro _
        exact List.length_eq_zero.mp (Nat.lt_one_iff.mp h)
      · intro _
        rfl
    · rw [if_neg h]
      constructor
      · intro hc
        exact absurd hc (by simp)
      · intro hnil
        exact absurd (show fs.lsEntries.length < 1 by simp [hnil]) h
  · intro hz
    have hns : ∀ e ∈ fs.lsEntries, e.size ≠ none := fun e he => by
      rw [hz e he]
      simp
    have h1 : listFiles false fs = .ok ((fs.lsEntries.filter sizePos).map FileEntry.name) :=
      filterSized_ok hns
    have h2 : fs.lsEntries.filter sizePos = [] := by
      rw [List.filter_eq_nil_iff]
      intro e he
      simp [sizePos, hz e he]
    rw [h1, h2]
    rfl

/-- C1 counterexample: a backend state whose listing contains only a
zero-size entry does NOT fail at initialization (the claim says it fails
with `EmptyCorpus` there); it passes and the filtered listing is empty. -/
theorem c1_counterexample :
    connectorInit ⟨[⟨pys "dir/marker", some 0⟩], [⟨pys "dir/marker", some 0⟩]⟩ =
      .ok () ∧
    listFiles false ⟨[⟨pys "dir/marker", some 0⟩], [⟨pys "dir/marker", some 0⟩]⟩ =
      .ok [] ∧
    listFiles true ⟨[⟨pys "dir/marker", some 0⟩], [⟨pys "dir/marker", some 0⟩]⟩ =
      .ok [] :=
  ⟨rfl, rfl, rfl⟩

/-- C1 witness: the amended theorem applied to a concrete state with two
zero-size entries. -/
theorem c1_init_checks_raw_listing_witness :
    listFiles false ⟨[⟨pys "a", some 0⟩, ⟨pys "b", some 0⟩], []⟩ = .ok [] :=
  (c1_init_checks_raw_listing ⟨[⟨pys "a", some 0⟩, ⟨pys "b", some 0⟩], []⟩).2
    (by decide)

/-- C2: a document flagged as an archive (`is_compressed`) makes both
`process_file` and `write_result` return `None` without forwarding to the
superclass, and a document is forwarded to the downstream content
processor (the second component) exactly when it is not an archive. -/
theorem c2_archives_skip_downstream (α : Type) (sc sw : Option α) (b : Bool) :
    process_file true sc = (none, false) ∧
    write_result true sw = (none, false) ∧
    ((process_file b sc).2 = true ↔ b = false) := by
  refine ⟨rfl, rfl, ?_⟩
  cases b <;> simp [process_file]

/-- C3: archive-corruption handling is asymmetric.  A tar `ReadError` is
caught: `process_tar` returns normally with the children list unchanged
(and the error logged); a zip extraction error is not caught anywhere in
`process_zip`, so it propagates unchanged to the caller.  On success both
extend the children list. -/
theorem c3_tar_zip_asymmetry (α ε : Type) (ez : ε) (docs children : List α) :
    process_tar (.error .readError) children = (children, true) ∧
    process_zip (Except.error ez : Except ε (List α)) children = .error ez ∧
    process_tar (.ok docs) children = (children ++ docs, false) ∧
    process_zip (Except.ok docs : Except ε (List α)) children =
      .ok (children ++ docs) :=
  ⟨rfl, rfl, rfl, rfl⟩

/-- C4: the fetch step is idempotent.  If the cache path does not yet
exist, running `get_file` twice for the same remote key performs exactly
one backend fetch call, and the second invocation changes nothing. -/
theorem c4_fetch_idempotent (download_dir dir_path remote_file_path : PyStr)
    (st : FetchState)
    (h : tmp_download_file download_dir dir_path remote_file_path ∉ st.existingPaths) :
    (get_file download_dir dir_path remote_file_path
        (get_file download_dir dir_path remote_file_path st)).fetchCalls =
      st.fetchCalls + 1 ∧
    get_file download_dir dir_path remote_file_path
        (get_file download_dir dir_path remote_file_path st) =
      get_file download_dir dir_path remote_file_path st := by
  unfold get_file
  rw [if_neg h]
  constructor <;> simp [List.mem_cons_self]

/-- C4 witness: two fetches of `bucket/f.txt` from a fresh state make
exactly one backend call. -/
theorem c4_fetch_idempotent_witness :
    (get_file (pys "dl") (pys "bucket") (pys "bucket/f.txt")
        (get_file (pys "dl") (pys "bucket") (pys "bucket/f.txt") ⟨[], 0⟩)).fetchCalls =
      0 + 1 ∧
    get_file (pys "dl") (pys "bucket") (pys "bucket/f.txt")
        (get_file (pys "dl") (pys "bucket") (pys "bucket/f.txt") ⟨[], 0⟩) =
      get_file (pys "dl") (pys "bucket") (pys "bucket/f.txt") ⟨[], 0⟩ :=
  c4_fetch_idempotent (pys "dl") (pys "bucket") (pys "bucket/f.txt") ⟨[], 0⟩
    (by decide)

/-- C5 (amended): for a dropbox address, the parser takes the rootless
branch (yielding `dir_path = " "`, `file_path = ""`) exactly when the
remainder after `://` BEGINS with a single whitespace character
immediately followed by `/` — a prefix match, so any trailing characters
are ignored.  (In particular the address with two spaces,
`dropbox://  /`, does not match this or any shape.) -/
theorem c5_rootless_shape (path rest : PyStr)
    (hsplit : pySplit (pys "://") path = [pys "dropbox", rest]) :
    postInit path = .ok ⟨pys "dropbox", rest, pys " ", pys ""⟩ ↔
      ∃ c t, rest = c :: '/' :: t ∧ pyIsSpace c = true := by
  rw [postInit_two hsplit,
    if_pos (by decide : pys "dropbox" ∈ SUPPORTED_REMOTE_FSSPEC_PROTOCOLS)]
  constructor
  · intro hok
    by_cases hrl : rootlessMatch rest = true
    · exact rootlessMatch_iff.mp hrl
    · exfalso
      rw [if_neg (by simp [hrl])] at hok
      cases hro : rootOnlyMatch rest with
      | some core =>
        rw [hro] at hok
        have hcore : core = pys " " := by
          injection hok with h'
          exact congrArg SimpleFsspecConfig.dir_path h'
        have hws := ((rootOnlyMatch_eq_some hro).2.2 ' '
          (by rw [hcore]; decide)).1
        exact absurd hws (by decide)
      | none =>
        rw [hro] at hok
        cases hobj : rootObjectMatch rest with
        | some df =>
          obtain ⟨d, f⟩ := df
          rw [hobj] at hok
          have hd : d = pys " " := by
            injection hok with h'
            exact congrArg SimpleFsspecConfig.dir_path h'
          have hws := (rootObjectMatch_eq_some hobj).2 ' ' (by rw [hd]; decide)
          exact absurd hws (by decide)
        | none =>
          rw [hobj] at hok
          exact absurd hok (by simp)
  · rintro ⟨c, t, hrest, hws⟩
    rw [if_pos ⟨rootlessMatch_iff.mpr ⟨c, t, hrest, hws⟩, rfl⟩]

/-- C5 counterexample: `dropbox:// /object.txt` — whose remainder is not
exactly one whitespace character followed by `/` — nevertheless matches
the rootless shape (refuting "no other dropbox address matches"), while
the claim's own example `dropbox://  /` (two spaces) is rejected as an
invalid path instead of parsing to root `" "`. -/
theorem c5_counterexample :
    postInit (pys "dropbox:// /object.txt") =
      .ok ⟨pys "dropbox", pys " /object.txt", pys " ", pys ""⟩ ∧
    postInit (pys "dropbox://  /") = .error .invalidPath :=
  ⟨rfl, rfl⟩

/-- C5 witness: the amended iff applied to the one-space address
`dropbox:// /`. -/
theorem c5_rootless_shape_witness :
    postInit (pys "dropbox:// /") =
      .ok ⟨pys "dropbox", pys " /", pys " ", pys ""⟩ :=
  (c5_rootless_shape (pys "dropbox:// /") (pys " /") (by decide)).mpr
    ⟨' ', [], rfl, rfl⟩

/-- C6: in both listing modes the lister keeps exactly the entries whose
reported size is strictly positive (assuming every entry reports a size):
the result is precisely the names of the size-positive entries, in
listing order, so every entry with size > 0 appears and every entry with
size 0 is excluded. -/
theorem c6_listing_filter (fs : Fs)
    (hls : ∀ e ∈ fs.lsEntries, e.size ≠ none)
    (hfind : ∀ e ∈ fs.findEntries, e.size ≠ none) :
    listFiles false fs = .ok ((fs.lsEntries.filter sizePos).map FileEntry.name) ∧
    listFiles true fs = .ok ((fs.findEntries.filter sizePos).map FileEntry.name) :=
  ⟨filterSized_ok hls, filterSized_ok hfind⟩

/-- C6 witness: a concrete mixed listing in both modes. -/
theorem c6_listing_filter_witness :
    listFiles false ⟨[⟨pys "a", some 3⟩, ⟨pys "d/", some 0⟩],
        [⟨pys "a", some 3⟩, ⟨pys "b", some 0⟩, ⟨pys "c", some 7⟩]⟩ =
      .ok [pys "a"] ∧
    listFiles true ⟨[⟨pys "a", some 3⟩, ⟨pys "d/", some 0⟩],
        [⟨pys "a", some 3⟩, ⟨pys "b", some 0⟩, ⟨pys "c", some 7⟩]⟩ =
      .ok [pys "a", pys "c"] :=
  c6_listing_filter ⟨[⟨pys "a", some 3⟩, ⟨pys "d/", some 0⟩],
      [⟨pys "a", some 3⟩, ⟨pys "b", some 0⟩, ⟨pys "c", some 7⟩]⟩
    (by decide) (by decide)

/-- C7 (amended): `path.split("://")` splits on EVERY occurrence and the
tuple unpacking demands exactly one: zero occurrences (no `://` at all)
or more than one (a remainder containing `://`) raise the invalid-address
`ValueError`; when there is exactly one, the supported-backend check
rejects every protocol outside the fixed set — all before any network
access (`postInit` is a pure function of the string). -/
theorem c7_split_exactly_one_separator (path : PyStr) :
    ((pySplit (pys "://") path).length ≠ 2 →
      postInit path = .error .valueUnpack) ∧
    (∀ protocol rest, pySplit (pys "://") path = [protocol, rest] →
      protocol ∉ SUPPORTED_REMOTE_FSSPEC_PROTOCOLS →
      postInit path = .error .unsupportedProtocol) ∧
    (hasOccAll (pys "://") path = false →
      postInit path = .error .valueUnpack) := by
  have hlen : ∀ parts, pySplit (pys "://") path = parts → parts.length ≠ 2 →
      postInit path = .error .valueUnpack := by
    intro parts hp hl
    unfold postInit
    rw [hp]
    rcases parts with _ | ⟨a, _ | ⟨b, _ | ⟨c, l⟩⟩⟩
    · rfl
    · rfl
    · exact absurd rfl hl
    · rfl
  refine ⟨fun h => hlen _ rfl h, ?_, ?_⟩
  · intro protocol rest hp hmem
    rw [postInit_two hp, if_neg hmem]
  · intro hno
    have hocc : occGo ':' (pys "//") path = false := by
      simpa [hasOccAll, show pys "://" = ':' :: pys "//" from rfl] using hno
    have hs : pySplit (pys "://") path = [path] :=
      splitGo_noOcc ':' (pys "//") path hocc
    exact hlen [path] hs (by simp)

/-- C7 counterexample: the remainder of `s3://bucket://key` contains
`://`; the claim says the parser splits at the FIRST `://` (yielding
backend `s3`, remainder `bucket://key`), but the code's split produces
three parts and the tuple unpacking raises `ValueError`. -/
theorem c7_counterexample :
    pySplit (pys "://") (pys "s3://bucket://key") =
      [pys "s3", pys "bucket", pys "key"] ∧
    postInit (pys "s3://bucket://key") = .error .valueUnpack :=
  ⟨rfl, rfl⟩

/-- C7 witness: an unsupported backend and a separator-free string. -/
theorem c7_split_exactly_one_separator_witness :
    postInit (pys "ftp://x") = .error .unsupportedProtocol ∧
    postInit (pys "no-separator-here") = .error .valueUnpack :=
  ⟨(c7_split_exactly_one_separator (pys "ftp://x")).2.1 (pys "ftp") (pys "x")
      (by decide) (by decide),
    (c7_split_exactly_one_separator (pys "no-separator-here")).2.2 (by decide)⟩

/-- C8 (amended): for every supported backend and every remainder that —
after ignoring at most one final newline and the trailing run of slashes
— is non-empty and contains no `/` and NO WHITESPACE, the parser yields
`dir_path` equal to that stripped remainder and `file_path = ""`.
(Remainders containing whitespace, which the claim includes, are in fact
rejected: the regex class is `[^/\s]`.) -/
theorem c8_root_only_shape (path protocol rest : PyStr)
    (hsplit : pySplit (pys "://") path = [protocol, rest])
    (hmem : protocol ∈ SUPPORTED_REMOTE_FSSPEC_PROTOCOLS)
    (hne : stripTrailingSlashes (stripFinalNewline rest) ≠ [])
    (hall : ∀ c ∈ stripTrailingSlashes (stripFinalNewline rest),
      pyIsSpace c = false ∧ c ≠ '/') :
    postInit path =
      .ok ⟨protocol, rest, stripTrailingSlashes (stripFinalNewline rest), pys ""⟩ := by
  have hro : rootOnlyMatch rest =
      some (stripTrailingSlashes (stripFinalNewline rest)) := by
    simp only [rootOnlyMatch]
    rw [if_pos ⟨hne, hall⟩]
  have hrl : rootlessMatch rest = false := notRootless_of_core hne hall
  rw [postInit_two hsplit, if_pos hmem, if_neg (by simp [hrl]), hro]

/-- C8 counterexample: the remainder `my bucket` contains no internal `/`,
so by the claim it should parse root-only with `root_path = "my bucket"`;
the code rejects it as an invalid path because the remainder contains
whitespace. -/
theorem c8_counterexample :
    postInit (pys "s3://my bucket") = .error .invalidPath ∧
    postInit (pys "s3://my bucket") ≠
      .ok ⟨pys "s3", pys "my bucket", pys "my bucket", pys ""⟩ := by
  refine ⟨rfl, ?_⟩
  intro hc
  have hc' : Except.error PyError.invalidPath =
      Except.ok (SimpleFsspecConfig.mk (pys "s3") (pys "my bucket")
        (pys "my bucket") (pys "")) := hc
  exact Except.noConfusion hc'

/-- C8 witness: `s3://bucket//` parses root-only with the trailing
slashes stripped. -/
theorem c8_root_only_shape_witness :
    postInit (pys "s3://bucket//") =
      .ok ⟨pys "s3", pys "bucket//", pys "bucket", pys ""⟩ :=
  c8_root_only_shape (pys "s3://bucket//") (pys "s3") (pys "bucket//")
    (by decide) (by decide) (by decide) (by decide)

/-- C9 (amended): the cache path is the working directory joined with the
remote key with EVERY occurrence of `dir_path ++ "/"` removed (Python
`str.replace` removes all occurrences, not only the leading one), and the
output path is the output directory joined with that same replaced key
plus `".json"`.  When the remote key contains `dir_path ++ "/"` only as
its leading part, this coincides with removing just the leading root
prefix. -/
theorem c9_path_derivation (download_dir output_dir dir_path rel : PyStr)
    (h : hasOccAll (dir_path ++ pys "/") rel = false) :
    tmp_download_file download_dir dir_path ((dir_path ++ pys "/") ++ rel) =
      pathDiv download_dir rel ∧
    output_filename output_dir dir_path ((dir_path ++ pys "/") ++ rel) =
      pathDiv output_dir (rel ++ pys ".json") := by
  have hrepl : pyReplaceEmpty (dir_path ++ pys "/") ((dir_path ++ pys "/") ++ rel) =
      rel := by
    cases hdp : dir_path ++ pys "/" with
    | nil =>
      have hin : ('/' : Char) ∈ dir_path ++ pys "/" :=
        List.mem_append_right _ (by decide)
      rw [hdp] at hin
      exact absurd hin (List.not_mem_nil _)
    | cons o os =>
      rw [hdp] at h
      show removeGo o os ((o :: os) ++ rel) 0 = rel
      rw [removeGo_pat]
      exact removeGo_noOcc o os rel (by simpa [hasOccAll] using h)
  unfold tmp_download_file output_filename
  rw [hrepl]
  exact ⟨rfl, rfl⟩

/-- C9 counterexample: with `dir_path = "docs"` and remote key
`docs/x/docs/y`, the code removes BOTH occurrences of `"docs/"`, giving
cache path `dl/x/y`, not the claim's leading-prefix-only result
`dl/x/docs/y`; the output path shows the same behaviour. -/
theorem c9_counterexample :
    tmp_download_file (pys "dl") (pys "docs") (pys "docs/x/docs/y") =
      pys "dl/x/y" ∧
    pathDiv (pys "dl") (removeLeadingRootOnly (pys "docs") (pys "docs/x/docs/y")) =
      pys "dl/x/docs/y" ∧
    output_filename (pys "out") (pys "docs") (pys "docs/x/docs/y") =
      pys "out/x/y.json" ∧
    pys "dl/x/y" ≠ pys "dl/x/docs/y" :=
  ⟨rfl, rfl, rfl, by decide⟩

/-- C9 witness: a remote key whose root prefix occurs only at the front. -/
theorem c9_path_derivation_witness :
    tmp_download_file (pys "dl") (pys "docs") ((pys "docs" ++ pys "/") ++ pys "x/y") =
      pathDiv (pys "dl") (pys "x/y") ∧
    output_filename (pys "out") (pys "docs") ((pys "docs" ++ pys "/") ++ pys "x/y") =
      pathDiv (pys "out") (pys "x/y" ++ pys ".json") :=
  c9_path_derivation (pys "dl") (pys "out") (pys "docs") (pys "x/y") (by decide)

/-- C10: if any listed entry lacks the size key (size `None`), the size
filter raises `TypeError` (from `None > 0`) instead of keeping or
dropping the entry — in either listing mode. -/
theorem c10_missing_size_type_error (fs : Fs) :
    ((∃ e ∈ fs.lsEntries, e.size = none) →
      listFiles false fs = .error .typeError) ∧
    ((∃ e ∈ fs.findEntries, e.size = none) →
      listFiles true fs = .error .typeError) :=
  ⟨fun h => filterSized_err h, fun h => filterSized_err h⟩

/-- C10 witness: a sizeless entry in each mode's listing. -/
theorem c10_missing_size_type_error_witness :
    listFiles false ⟨[⟨pys "dir", none⟩], [⟨pys "a", some 5⟩, ⟨pys "dir", none⟩]⟩ =
      .error .typeError ∧
    listFiles true ⟨[⟨pys "dir", none⟩], [⟨pys "a", some 5⟩, ⟨pys "dir", none⟩]⟩ =
      .error .typeError :=
  ⟨(c10_missing_size_type_error
        ⟨[⟨pys "dir", none⟩], [⟨pys "a", some 5⟩, ⟨pys "dir", none⟩]⟩).1 (by decide),
    (c10_missing_size_type_error
        ⟨[⟨pys "dir", none⟩], [⟨pys "a", some 5⟩, ⟨pys "dir", none⟩]⟩).2 (by decide)⟩

